import Mathlib

/-!
Verification of the A/B learning engine (`src/ab-learning.ts`).

The engine's persistent store (SQLite tables `prompt_variants`,
`variant_performance`, `feedback_records`, `preference_comparisons`) is
embedded as lists of rows; SQL `REAL` arithmetic is embedded over `ℚ`
(the random samplers, which are genuinely real-valued, are embedded
over `ℝ` as an inductive reachability relation).  Randomness consumed
by the code (`Math.random()`, `randomBytes`) is passed in explicitly as
oracle streams.  JavaScript runtime errors (dereferencing `undefined`)
are modelled with `Except JsError`.
-/

namespace ABLearning

/-- Row of `variant_performance` (interface `VariantPerformance`). -/
structure VariantPerformance where
  variantId : String
  alpha : ℚ
  beta : ℚ
  totalTrials : ℕ
  avgReward : ℚ
  avgLatencyMs : ℚ
  avgTokenCost : ℚ
  deriving DecidableEq, Repr

/-- Row of `prompt_variants` (interface `PromptVariant`). -/
structure PromptVariant where
  id : String
  template : String
  parentId : Option String
  generation : ℕ
  createdAt : ℕ
  deriving DecidableEq, Repr

/-- Row of `feedback_records` (interface `FeedbackRecord`). -/
structure FeedbackRecord where
  taskId : String
  variantId : String
  reward : ℚ
  latencyMs : ℚ
  tokenCost : ℚ
  success : Bool
  timestamp : ℕ
  deriving DecidableEq, Repr

/-- Row of `preference_comparisons` (interface `PreferenceComparison`). -/
structure PreferenceComparison where
  winnerId : String
  loserId : String
  context : String
  humanFeedback : Bool
  timestamp : ℕ
  deriving DecidableEq, Repr

/-- The SQLite database owned by `ABLearningPlugin`, one list per table.
`variant_id` is the primary key of `variant_performance`, `id` the primary
key of `prompt_variants`. -/
structure DB where
  promptVariants : List PromptVariant
  variantPerformance : List VariantPerformance
  feedbackRecords : List FeedbackRecord
  preferenceComparisons : List PreferenceComparison
  deriving DecidableEq, Repr

/-- JavaScript runtime failure (a `TypeError` from dereferencing
`undefined`); the source contains no `throw` of its own. -/
inductive JsError where
  | typeError
  deriving DecidableEq, Repr

/-- `SELECT * FROM variant_performance WHERE variant_id = ?` (first
matching row, `none` when the query returns no row). -/
def lookupPerf : List VariantPerformance → String → Option VariantPerformance
  | [], _ => none
  | r :: rs, id => if r.variantId = id then some r else lookupPerf rs id

/-- `getPerformance`: the stored row, or the uniform prior `Beta(1,1)`
row when no row exists (lines 259-286). -/
def getPerformance (db : DB) (variantId : String) : VariantPerformance :=
  match lookupPerf db.variantPerformance variantId with
  | some row => row
  | none => ⟨variantId, 1, 1, 0, 0, 0, 0⟩

/-- `INSERT OR REPLACE INTO variant_performance`: any row with the same
primary key is removed and the new row inserted. -/
def upsertPerf (rows : List VariantPerformance) (row : VariantPerformance) :
    List VariantPerformance :=
  rows.filter (fun r => !(r.variantId = row.variantId : Bool)) ++ [row]

/-- `recordFeedback` (lines 231-257): Bayesian update of the posterior row
followed by appending the raw feedback row.  `now` stands for the
`Date.now()` timestamp written into `feedback_records`. -/
def recordFeedback (db : DB) (feedback : FeedbackRecord) (now : ℕ) : DB :=
  let perf := getPerformance db feedback.variantId
  let newAlpha := perf.alpha + (if feedback.success then 1 else 0)
  let newBeta := perf.beta + (if feedback.success then 0 else 1)
  let newTrials := perf.totalTrials + 1
  let newAvgReward :=
    (perf.avgReward * perf.totalTrials + feedback.reward) / (newTrials : ℚ)
  let newAvgLatency :=
    (perf.avgLatencyMs * perf.totalTrials + feedback.latencyMs) / (newTrials : ℚ)
  let newAvgTokenCost :=
    (perf.avgTokenCost * perf.totalTrials + feedback.tokenCost) / (newTrials : ℚ)
  { db with
    variantPerformance := upsertPerf db.variantPerformance
      ⟨feedback.variantId, newAlpha, newBeta, newTrials,
       newAvgReward, newAvgLatency, newAvgTokenCost⟩
    feedbackRecords := db.feedbackRecords ++
      [⟨feedback.taskId, feedback.variantId, feedback.reward,
        feedback.latencyMs, feedback.tokenCost, feedback.success, now⟩] }

/-- `getVariantStats` (lines 563-565) just forwards to `getPerformance`,
whose only storage access is a `SELECT`; the pair records the (unchanged)
database next to the returned row. -/
def getVariantStatsOp (db : DB) (variantId : String) : VariantPerformance × DB :=
  (getPerformance db variantId, db)

/-- `Math.max(...samples)` of a list; `none` models `-Infinity`
(the result of `Math.max()` on an empty spread). -/
def jsMax : List ℚ → Option ℚ
  | [] => none
  | a :: as => some (as.foldl max a)

/-- `Array.prototype.indexOf`: index of the first occurrence, `-1` when
the value does not occur. -/
def jsIndexOfFrom : List ℚ → ℚ → ℕ → Int
  | [], _, _ => -1
  | a :: as, x, i => if a = x then (i : Int) else jsIndexOfFrom as x (i + 1)

/-- JavaScript array indexing `arr[i]`: `undefined` (modelled `none`) on
any out-of-range index, in particular `arr[-1]`. -/
def jsGet {α : Type} (l : List α) (i : Int) : Option α :=
  if 0 ≤ i then l.get? i.toNat else none

/-- `thompsonSample` (lines 166-177).  `draw i` stands for the Beta
sample drawn from the `i`-th candidate's posterior (`sampleBeta` applied
to the stored `alpha`, `beta`); the selection logic
`candidateIds[samples.indexOf(Math.max(...samples))]` is translated
literally.  The function body contains no `throw`, so the `Except`
result is always `ok`. -/
def thompsonSample (draw : ℕ → ℚ) (candidateIds : List String) :
    Except JsError (Option String) :=
  let samples := (List.range candidateIds.length).map draw
  let maxIdx : Int :=
    match jsMax samples with
    | none => -1
    | some m => jsIndexOfFrom samples m 0
  .ok (jsGet candidateIds maxIdx)

/-- Result record of `evaluateABTest`. -/
structure ABTestResult where
  winner : Option String
  confidence : ℚ
  pValue : ℚ
  deriving DecidableEq, Repr

/-- The win counter of the `nSamples = 10000` Monte-Carlo loop of
`evaluateABTest`: `drawA i` / `drawB i` stand for the two Beta samples
drawn in iteration `i`, and the counter is incremented when
`sampleA > sampleB`. -/
def abWins (drawA drawB : ℕ → ℚ) : ℕ :=
  ((List.range 10000).filter (fun i => decide (drawB i < drawA i))).length

/-- `evaluateABTest` (lines 295-322). -/
def evaluateABTest (variantA variantB : String) (drawA drawB : ℕ → ℚ) :
    ABTestResult :=
  let probAWins : ℚ := (abWins drawA drawB : ℚ) / 10000
  let confidence := max probAWins (1 - probAWins)
  let pValue := 2 * min probAWins (1 - probAWins)
  { winner :=
      if 95 / 100 < confidence then
        (if 1 / 2 < probAWins then some variantA else some variantB)
      else none
    confidence := confidence
    pValue := pValue }

/-- `UPDATE variant_performance SET alpha = alpha + d WHERE variant_id = ?`:
matching rows are modified in place; when no row matches, nothing
happens. -/
def updateAlpha (rows : List VariantPerformance) (id : String) (d : ℚ) :
    List VariantPerformance :=
  rows.map (fun r => if r.variantId = id then { r with alpha := r.alpha + d } else r)

/-- `UPDATE variant_performance SET beta = beta + d WHERE variant_id = ?`. -/
def updateBeta (rows : List VariantPerformance) (id : String) (d : ℚ) :
    List VariantPerformance :=
  rows.map (fun r => if r.variantId = id then { r with beta := r.beta + d } else r)

/-- `recordPreference` (lines 493-515): append the comparison row, then
add `0.1` to the winner's `alpha` and `0.1` to the loser's `beta`.  (The
source also reads both posteriors into `winnerPerf` / `loserPerf` but
never uses them, so those reads have no effect to translate.)  `now`
stands for `Date.now()`. -/
def recordPreference (db : DB) (winnerId loserId context : String)
    (humanFeedback : Bool) (now : ℕ) : DB :=
  let comparisons := db.preferenceComparisons ++
    [⟨winnerId, loserId, context, humanFeedback, now⟩]
  let perfAfterWinner := updateAlpha db.variantPerformance winnerId (1/10)
  let perfAfterLoser := updateBeta perfAfterWinner loserId (1/10)
  { db with preferenceComparisons := comparisons,
            variantPerformance := perfAfterLoser }

/-- The `WHERE` clause of `pruneLowPerformers`' `DELETE` subquery:
`total_trials >= 20 AND (alpha / (alpha + beta)) < 0.05`.  SQLite yields
`NULL` for a `REAL` division by zero, and `NULL < 0.05` does not select
the row, hence the `alpha + beta ≠ 0` guard. -/
def shouldPrune (db : DB) (id : String) : Bool :=
  match lookupPerf db.variantPerformance id with
  | some p => decide (20 ≤ p.totalTrials) && decide (p.alpha + p.beta ≠ 0) &&
      decide (p.alpha / (p.alpha + p.beta) < 1/20)
  | none => false

/-- `pruneLowPerformers` (lines 537-546): `DELETE FROM prompt_variants
WHERE id IN (SELECT variant_id FROM variant_performance WHERE
total_trials >= 20 AND (alpha / (alpha + beta)) < 0.05)`.  Only the
`prompt_variants` table is touched; `variant_performance` rows are not
deleted (the schema declares no `ON DELETE CASCADE`, and `bun:sqlite`
leaves SQLite's foreign-key enforcement at its default, off). -/
def pruneLowPerformers (db : DB) : DB :=
  { db with promptVariants :=
      db.promptVariants.filter (fun v => !(shouldPrune db v.id)) }

/-- Values `sampleGamma(shape, scale)` (lines 191-217) can return, as a
reachability relation over exact reals.  `U` is the range allowed for the
uniform draws consumed by `Math.random()` in the `shape < 1` branch
(faithfully `[0,1)`).  For `shape ≥ 1` the Marsaglia-Tsang loop exits
only with `v = (1 + c·x)³ > 0` (the inner `do..while` retries until
`1 + c·x > 0`) and every return site yields `d·v·scale` with
`d = shape - 1/3`, `c = 1/√(9d)`; the two acceptance tests only decide
when the loop returns, never what it returns, and any `(x, v)` pair is
acceptable for a small enough acceptance uniform, so the set of
reachable return values is exactly the `accept` constructor's image.
The normal draw `x` produced by the Box-Muller `randomNormal` ranges
over all of `ℝ`.  For `shape < 1` the code returns
`sampleGamma(shape+1, scale) * Math.pow(Math.random(), 1/shape)`. -/
inductive GammaRet (U : Set ℝ) : ℝ → ℝ → ℝ → Prop where
  | accept (shape scale x : ℝ) (h1 : 1 ≤ shape)
      (hv : 0 < 1 + (1 / Real.sqrt (9 * (shape - 1/3))) * x) :
      GammaRet U shape scale
        ((shape - 1/3) * (1 + (1 / Real.sqrt (9 * (shape - 1/3))) * x)^3 * scale)
  | small (shape scale u r : ℝ) (h1 : shape < 1) (hu : u ∈ U)
      (hrec : GammaRet U (shape + 1) scale r) :
      GammaRet U shape scale (r * u ^ ((1:ℝ)/shape))

/-- Values `sampleBeta(alpha, beta)` (lines 182-186) can return:
`x ~ sampleGamma(alpha, 1)`, `y ~ sampleGamma(beta, 1)`, result
`x / (x + y)`. -/
def BetaRet (U : Set ℝ) (alpha beta r : ℝ) : Prop :=
  ∃ x y, GammaRet U alpha 1 x ∧ GammaRet U beta 1 y ∧ r = x / (x + y)

/-- `minTrialsBeforeExploitation` field, initialized to 10 (line 148). -/
def minTrialsBeforeExploitation : ℕ := 10

/-- The rows satisfying `getTopVariants`' `JOIN` + `WHERE
vp.total_trials >= ?` clause (lines 354-362): variants that also have a
performance row with at least `minTrialsBeforeExploitation` trials. -/
def topQualified (db : DB) : List PromptVariant :=
  db.promptVariants.filter (fun v =>
    match lookupPerf db.variantPerformance v.id with
    | some p => decide (minTrialsBeforeExploitation ≤ p.totalTrials)
    | none => false)

/-- Insertion step of the `ORDER BY vp.avg_reward DESC` sort. -/
def insertByReward (db : DB) (v : PromptVariant) :
    List PromptVariant → List PromptVariant
  | [] => [v]
  | w :: ws =>
    if (getPerformance db w.id).avgReward < (getPerformance db v.id).avgReward
    then v :: w :: ws else w :: insertByReward db v ws

/-- `ORDER BY vp.avg_reward DESC` as an insertion sort (SQLite fixes no
particular order among equal keys; this picks one). -/
def sortByRewardDesc (db : DB) : List PromptVariant → List PromptVariant
  | [] => []
  | v :: vs => insertByReward db v (sortByRewardDesc db vs)

/-- `getTopVariants` (lines 354-371): qualified variants sorted by
descending average reward, `LIMIT n`. -/
def getTopVariants (db : DB) (n : ℕ) : List PromptVariant :=
  (sortByRewardDesc db (topQualified db)).take n

/-- The three contestants pushed by one tournament iteration (lines
376-379): `population[Math.floor(Math.random() * population.length)]`
three times; `rand base + j` is the already-floored random index of the
`j`-th push, and JavaScript indexing out of range (in particular on an
empty population, where the floored index is 0) yields `undefined`
(`none`). -/
def contestantsFrom (population : List PromptVariant) (rand : ℕ → ℕ)
    (base : ℕ) : List (Option PromptVariant) :=
  [population.get? (rand base), population.get? (rand (base + 1)),
   population.get? (rand (base + 2))]

/-- One step of the `contestants.reduce` callback (lines 381-385):
`perfA.avgReward > perfB.avgReward ? a : b`.  Both `a.id` and `b.id` are
dereferenced, so an `undefined` contestant raises a `TypeError`. -/
def prefBest (db : DB) (a b : Option PromptVariant) :
    Except JsError (Option PromptVariant) :=
  match a, b with
  | some va, some vb =>
    .ok (some (if (getPerformance db vb.id).avgReward <
        (getPerformance db va.id).avgReward then va else vb))
  | _, _ => .error JsError.typeError

/-- `Array.prototype.reduce` with no initial value: `TypeError` on an
empty array, otherwise a left fold started from the first element. -/
def jsReduceBest (db : DB) :
    List (Option PromptVariant) → Except JsError (Option PromptVariant)
  | [] => .error JsError.typeError
  | c :: cs => cs.foldlM (prefBest db) c

/-- `tournamentSelection(population, k)` (lines 373-389): `k` tournament
winners, each the reduce-best of three randomly indexed contestants;
`rand` is the stream of floored random indices, consumed three per
selection. -/
def tournamentSelection (db : DB) (population : List PromptVariant)
    (k : ℕ) (rand : ℕ → ℕ) : Except JsError (List (Option PromptVariant)) :=
  match k with
  | 0 => .ok []
  | k' + 1 =>
    match jsReduceBest db (contestantsFrom population rand 0) with
    | .error e => .error e
    | .ok best =>
      match tournamentSelection db population k' (fun n => rand (n + 3)) with
      | .error e => .error e
      | .ok rest => .ok (best :: rest)

/-- `crossoverPrompts` (lines 391-411): the placeholder implementation
returns `promptA + "\n\nAdditionally: " + promptB.split('\n')[0]`
(splitting any string yields at least one piece, so index 0 is its first
element). -/
def crossoverPrompts (promptA promptB : String) : String :=
  promptA ++ "\n\nAdditionally: " ++ (promptB.splitOn "\n").headD ""

/-- The five placeholder mutation suffixes (lines 430-436). -/
def mutations : List String :=
  [" Be concise.", " Focus on performance.", " Consider edge cases.",
   " Use modern patterns.", " Optimize for readability."]

/-- `mutatePrompt` (lines 413-438): appends a randomly chosen mutation
suffix; `choice` is the already-floored `Math.floor(Math.random() * 5)`. -/
def mutatePrompt (prompt : String) (choice : Fin 5) : String :=
  prompt ++ mutations.getD choice.val ""

/-- `createVariant` (lines 440-454): inserts the variant row and its
default performance row.  `newId` stands for the generated
`randomBytes(16).toString('hex')` id and `now` for `Date.now()`. -/
def createVariant (db : DB) (template : String) (parentId : Option String)
    (generation : ℕ) (newId : String) (now : ℕ) : DB :=
  { db with
    promptVariants := db.promptVariants ++
      [⟨newId, template, parentId, generation, now⟩]
    variantPerformance := db.variantPerformance ++ [⟨newId, 1, 1, 0, 0, 0, 0⟩] }

/-- The randomness consumed by one `evolvePrompts` call: `tournIdx gen`
is the index stream of generation `gen`'s two tournament selections,
`doMutate gen` the outcome of `Math.random() < 0.2`, `mutChoice gen` the
floored mutation pick, and `freshId gen` the `randomBytes` id of the
variant created in generation `gen`. -/
structure EvolveRng where
  tournIdx : ℕ → ℕ → ℕ
  doMutate : ℕ → Bool
  mutChoice : ℕ → Fin 5
  freshId : ℕ → String

/-- The `for (let gen = 0; gen < nGenerations; gen++)` loop body of
`evolvePrompts` (lines 336-349), with the remaining iteration count as
first numeric argument and the current `gen` as second. -/
def evolveLoop (rng : EvolveRng) (now : ℕ) (population : List PromptVariant) :
    ℕ → ℕ → DB → Except JsError (List String × DB)
  | 0, _, db => .ok ([], db)
  | k + 1, gen, db =>
    match tournamentSelection db population 2 (rng.tournIdx gen) with
    | .error e => .error e
    | .ok parents =>
      match parents.getD 0 none, parents.getD 1 none with
      | some p0, some p1 =>
        let offspring := crossoverPrompts p0.template p1.template
        let mutated := if rng.doMutate gen then
          mutatePrompt offspring (rng.mutChoice gen) else offspring
        let newId := rng.freshId gen
        match evolveLoop rng now population k (gen + 1)
            (createVariant db mutated (some p0.id) (p0.generation + 1) newId now) with
        | .error e => .error e
        | .ok (rest, dbf) => .ok (newId :: rest, dbf)
      | _, _ => .error JsError.typeError

/-- `evolvePrompts(populationSize, nGenerations)` (lines 331-352): fetch
the fixed breeding population once, then run the generation loop. -/
def evolvePrompts (db : DB) (populationSize nGenerations : ℕ)
    (rng : EvolveRng) (now : ℕ) : Except JsError (List String × DB) :=
  evolveLoop rng now (getTopVariants db populationSize) nGenerations 0 db

/-- A concrete store with one variant "a" holding 10 trials, used to
exercise `evolvePrompts` at a concrete input. -/
def evolveWitnessDB : DB :=
  ⟨[⟨"a", "T", none, 0, 0⟩], [⟨"a", 1, 1, 10, 1, 0, 0⟩], [], []⟩

/-- A concrete randomness stream: all tournament indices 0, never
mutate, mutation choice 0, fresh id "n0". -/
def evolveWitnessRng : EvolveRng :=
  ⟨fun _ _ => 0, fun _ => false, fun _ => 0, fun _ => "n0"⟩

theorem lookupPerf_upsert_self (rows : List VariantPerformance)
    (row : VariantPerformance) :
    lookupPerf (upsertPerf rows row) row.variantId = some row := by
  induction rows with
  | nil => simp [upsertPerf, lookupPerf]
  | cons r rs ih =>
    by_cases h : r.variantId = row.variantId
    · simpa [upsertPerf, h] using ih
    · simpa [upsertPerf, lookupPerf, h] using ih

theorem lookupPerf_eq_some_variantId (rows : List VariantPerformance)
    (id : String) (r : VariantPerformance)
    (h : lookupPerf rows id = some r) : r.variantId = id := by
  induction rows with
  | nil => exact Option.noConfusion h
  | cons a as ih =>
    by_cases ha : a.variantId = id
    · rw [lookupPerf, if_pos ha] at h
      injection h with h2
      rw [← h2]
      exact ha
    · rw [lookupPerf, if_neg ha] at h
      exact ih h

theorem lookupPerf_map_preserving (f : VariantPerformance → VariantPerformance)
    (hf : ∀ r, (f r).variantId = r.variantId)
    (rows : List VariantPerformance) (id : String) :
    lookupPerf (rows.map f) id = (lookupPerf rows id).map f := by
  induction rows with
  | nil => rfl
  | cons r rs ih =>
    show (if (f r).variantId = id then some (f r) else lookupPerf (rs.map f) id) = _
    rw [hf r]
    by_cases h : r.variantId = id
    · rw [if_pos h]
      show _ = (if r.variantId = id then some r else lookupPerf rs id).map f
      rw [if_pos h]
      rfl
    · rw [if_neg h]
      show _ = (if r.variantId = id then some r else lookupPerf rs id).map f
      rw [if_neg h]
      exact ih

theorem updateAlpha_preserves_variantId (id : String) (d : ℚ)
    (r : VariantPerformance) :
    ((if r.variantId = id then { r with alpha := r.alpha + d } else r) :
      VariantPerformance).variantId = r.variantId := by
  by_cases h : r.variantId = id
  · rw [if_pos h]
  · rw [if_neg h]

theorem updateBeta_preserves_variantId (id : String) (d : ℚ)
    (r : VariantPerformance) :
    ((if r.variantId = id then { r with beta := r.beta + d } else r) :
      VariantPerformance).variantId = r.variantId := by
  by_cases h : r.variantId = id
  · rw [if_pos h]
  · rw [if_neg h]

theorem lookupPerf_updateAlpha_self (rows : List VariantPerformance)
    (id : String) (d : ℚ) :
    lookupPerf (updateAlpha rows id d) id =
      (lookupPerf rows id).map (fun r => { r with alpha := r.alpha + d }) := by
  rw [updateAlpha,
    lookupPerf_map_preserving _ (updateAlpha_preserves_variantId id d)]
  cases h : lookupPerf rows id with
  | none => rfl
  | some r =>
    have hv := lookupPerf_eq_some_variantId rows id r h
    simp only [Option.map]
    rw [if_pos hv]

theorem lookupPerf_updateAlpha_other (rows : List VariantPerformance)
    (id id' : String) (d : ℚ) (h : id' ≠ id) :
    lookupPerf (updateAlpha rows id d) id' = lookupPerf rows id' := by
  rw [updateAlpha,
    lookupPerf_map_preserving _ (updateAlpha_preserves_variantId id d)]
  cases hq : lookupPerf rows id' with
  | none => rfl
  | some r =>
    have hv := lookupPerf_eq_some_variantId rows id' r hq
    simp only [Option.map]
    rw [if_neg (by rw [hv]; exact h)]

theorem lookupPerf_updateBeta_self (rows : List VariantPerformance)
    (id : String) (d : ℚ) :
    lookupPerf (updateBeta rows id d) id =
      (lookupPerf rows id).map (fun r => { r with beta := r.beta + d }) := by
  rw [updateBeta,
    lookupPerf_map_preserving _ (updateBeta_preserves_variantId id d)]
  cases h : lookupPerf rows id with
  | none => rfl
  | some r =>
    have hv := lookupPerf_eq_some_variantId rows id r h
    simp only [Option.map]
    rw [if_pos hv]

theorem lookupPerf_updateBeta_other (rows : List VariantPerformance)
    (id id' : String) (d : ℚ) (h : id' ≠ id) :
    lookupPerf (updateBeta rows id d) id' = lookupPerf rows id' := by
  rw [updateBeta,
    lookupPerf_map_preserving _ (updateBeta_preserves_variantId id d)]
  cases hq : lookupPerf rows id' with
  | none => rfl
  | some r =>
    have hv := lookupPerf_eq_some_variantId rows id' r hq
    simp only [Option.map]
    rw [if_neg (by rw [hv]; exact h)]

theorem shouldPrune_eq_false_iff (db : DB) (id : String) :
    shouldPrune db id = false ↔
      ¬ ∃ p, lookupPerf db.variantPerformance id = some p ∧
        20 ≤ p.totalTrials ∧ p.alpha + p.beta ≠ 0 ∧
        p.alpha / (p.alpha + p.beta) < 1/20 := by
  unfold shouldPrune
  cases h : lookupPerf db.variantPerformance id with
  | none => simp
  | some p =>
    simp only [Bool.and_eq_false_iff, decide_eq_false_iff_not, not_not,
      Option.some.injEq]
    constructor
    · rintro (h1 | h2) ⟨q, rfl, hq1, hq2, hq3⟩
      · rcases h1 with h1a | h1b
        · exact h1a hq1
        · exact hq2 h1b
      · exact absurd hq3 h2
    · intro hno
      by_cases h1 : 20 ≤ p.totalTrials
      · by_cases h2 : p.alpha + p.beta ≠ 0
        · by_cases h3 : p.alpha / (p.alpha + p.beta) < 1/20
          · exact absurd ⟨p, rfl, h1, h2, h3⟩ hno
          · exact Or.inr h3
        · exact Or.inl (Or.inr (not_not.mp h2))
      · exact Or.inl (Or.inl h1)

end ABLearning

namespace ABLearning

/-- C1: `recordFeedback` increments `alpha` by 1 exactly on success and
`beta` by 1 exactly on failure, increments `totalTrials` by 1, updates
each running average by the incremental-mean formula
`(avg * n + newValue) / (n + 1)`, and appends exactly one feedback row
to the history. -/
theorem recordFeedback_updates_posterior_and_history
    (db : DB) (feedback : FeedbackRecord) (now : ℕ) :
    getPerformance (recordFeedback db feedback now) feedback.variantId =
      { variantId := feedback.variantId
        alpha := (getPerformance db feedback.variantId).alpha +
          (if feedback.success then 1 else 0)
        beta := (getPerformance db feedback.variantId).beta +
          (if feedback.success then 0 else 1)
        totalTrials := (getPerformance db feedback.variantId).totalTrials + 1
        avgReward := ((getPerformance db feedback.variantId).avgReward *
            (getPerformance db feedback.variantId).totalTrials + feedback.reward) /
          (((getPerformance db feedback.variantId).totalTrials : ℚ) + 1)
        avgLatencyMs := ((getPerformance db feedback.variantId).avgLatencyMs *
            (getPerformance db feedback.variantId).totalTrials + feedback.latencyMs) /
          (((getPerformance db feedback.variantId).totalTrials : ℚ) + 1)
        avgTokenCost := ((getPerformance db feedback.variantId).avgTokenCost *
            (getPerformance db feedback.variantId).totalTrials + feedback.tokenCost) /
          (((getPerformance db feedback.variantId).totalTrials : ℚ) + 1) } ∧
    (recordFeedback db feedback now).feedbackRecords =
      db.feedbackRecords ++
        [⟨feedback.taskId, feedback.variantId, feedback.reward,
          feedback.latencyMs, feedback.tokenCost, feedback.success, now⟩] := by
  constructor
  · show getPerformance (recordFeedback db feedback now) feedback.variantId = _
    have h := lookupPerf_upsert_self db.variantPerformance
      (⟨feedback.variantId,
        (getPerformance db feedback.variantId).alpha +
          (if feedback.success then 1 else 0),
        (getPerformance db feedback.variantId).beta +
          (if feedback.success then 0 else 1),
        (getPerformance db feedback.variantId).totalTrials + 1,
        ((getPerformance db feedback.variantId).avgReward *
            (getPerformance db feedback.variantId).totalTrials + feedback.reward) /
          (((getPerformance db feedback.variantId).totalTrials : ℚ) + 1),
        ((getPerformance db feedback.variantId).avgLatencyMs *
            (getPerformance db feedback.variantId).totalTrials + feedback.latencyMs) /
          (((getPerformance db feedback.variantId).totalTrials : ℚ) + 1),
        ((getPerformance db feedback.variantId).avgTokenCost *
            (getPerformance db feedback.variantId).totalTrials + feedback.tokenCost) /
          (((getPerformance db feedback.variantId).totalTrials : ℚ) + 1)⟩ :
        VariantPerformance)
    unfold recordFeedback getPerformance
    push_cast
    simp only [getPerformance] at h ⊢
    rw [h]
  · rfl

theorem confidence_pValue_bounds (p : ℚ) (h0 : 0 ≤ p) (h1 : p ≤ 1) :
    1 / 2 ≤ max p (1 - p) ∧ max p (1 - p) ≤ 1 ∧
    0 ≤ 2 * min p (1 - p) ∧ 2 * min p (1 - p) ≤ 1 := by
  refine ⟨?_, max_le h1 (by linarith), ?_, ?_⟩
  · rcases le_total p (1/2) with h | h
    · exact le_max_of_le_right (by linarith)
    · exact le_max_of_le_left h
  · rcases le_total p (1 - p) with h | h
    · rw [min_eq_left h]; linarith
    · rw [min_eq_right h]; linarith
  · rcases le_total p (1 - p) with h | h
    · rw [min_eq_left h]; linarith
    · rw [min_eq_right h]; linarith

/-- C3: for every pair of variant ids and every outcome of the 10000-trial
Monte-Carlo loop, `evaluateABTest` returns `confidence = max p (1-p)` lying
in `[1/2, 1]`, `pValue = 2 * min p (1-p)` lying in `[0, 1]`, and the winner
is `variantA` exactly when `confidence > 0.95` and `p > 0.5`, `variantB`
when `confidence > 0.95` and `p ≤ 0.5`, and `null` when
`confidence ≤ 0.95`. -/
theorem evaluateABTest_confidence_pValue_winner
    (variantA variantB : String) (drawA drawB : ℕ → ℚ) :
    (evaluateABTest variantA variantB drawA drawB).confidence =
      max ((abWins drawA drawB : ℚ) / 10000)
        (1 - (abWins drawA drawB : ℚ) / 10000) ∧
    1 / 2 ≤ (evaluateABTest variantA variantB drawA drawB).confidence ∧
    (evaluateABTest variantA variantB drawA drawB).confidence ≤ 1 ∧
    (evaluateABTest variantA variantB drawA drawB).pValue =
      2 * min ((abWins drawA drawB : ℚ) / 10000)
        (1 - (abWins drawA drawB : ℚ) / 10000) ∧
    0 ≤ (evaluateABTest variantA variantB drawA drawB).pValue ∧
    (evaluateABTest variantA variantB drawA drawB).pValue ≤ 1 ∧
    (evaluateABTest variantA variantB drawA drawB).winner =
      (if 95 / 100 <
          max ((abWins drawA drawB : ℚ) / 10000)
            (1 - (abWins drawA drawB : ℚ) / 10000) then
        (if 1 / 2 < (abWins drawA drawB : ℚ) / 10000 then some variantA
         else some variantB)
       else none) := by
  have hwle : abWins drawA drawB ≤ 10000 := by
    have h1 := List.length_filter_le
      (fun i => decide (drawB i < drawA i)) (List.range 10000)
    simpa [abWins] using h1
  have hp0 : (0 : ℚ) ≤ (abWins drawA drawB : ℚ) / 10000 :=
    div_nonneg (Nat.cast_nonneg _) (by norm_num)
  have hp1 : (abWins drawA drawB : ℚ) / 10000 ≤ 1 := by
    rw [div_le_one (by norm_num : (0:ℚ) < 10000)]
    exact_mod_cast hwle
  obtain ⟨b1, b2, b3, b4⟩ := confidence_pValue_bounds _ hp0 hp1
  exact ⟨rfl, b1, b2, rfl, b3, b4, rfl⟩

/-- C4: `getVariantStats` on a variant id with no stored posterior row
returns the default prior (`alpha = 1`, `beta = 1`, `totalTrials = 0`,
all averages `0`) and leaves the stored state completely unchanged. -/
theorem getVariantStats_unknown_default
    (db : DB) (variantId : String)
    (h : lookupPerf db.variantPerformance variantId = none) :
    getVariantStatsOp db variantId =
      (⟨variantId, 1, 1, 0, 0, 0, 0⟩, db) := by
  simp [getVariantStatsOp, getPerformance, h]

/-- Witness for C4: a concrete empty store and concrete id. -/
theorem getVariantStats_unknown_default_witness :
    getVariantStatsOp ⟨[], [], [], []⟩ "unknown" =
      (⟨"unknown", 1, 1, 0, 0, 0, 0⟩, ⟨[], [], [], []⟩) :=
  getVariantStats_unknown_default ⟨[], [], [], []⟩ "unknown" rfl

/-- C8 counterexample: `thompsonSample` on the empty candidate list does
not fail — `Math.max()` of an empty spread is `-Infinity`, `indexOf`
yields `-1`, and `candidateIds[-1]` is `undefined` — so the call returns
normally with `undefined` (here `ok none`), never an error. -/
theorem thompsonSample_empty_not_error :
    thompsonSample (fun _ => 0) [] = Except.ok none ∧
    (Except.ok (none : Option String) : Except JsError (Option String)) ≠
      Except.error JsError.typeError := by
  constructor
  · rfl
  · intro h
    exact Except.noConfusion h

/-- C8 amended: for every sequence of posterior draws, `thompsonSample`
on the empty candidate list returns normally with `undefined`
(modelled `ok none`) instead of failing with an error. -/
theorem thompsonSample_empty_returns_undefined (draw : ℕ → ℚ) :
    thompsonSample draw [] = Except.ok none := rfl

/-- C5 counterexample: a variant with `totalTrials = 25` and
`alpha/(alpha+beta) = 3/100 < 0.05` is deleted from `prompt_variants` by
one pruning pass, but its `variant_performance` row is NOT deleted — the
posterior is not co-destroyed as the claim states. -/
theorem prune_leaves_posterior_row_cx :
    (pruneLowPerformers
        ⟨[⟨"v", "t", none, 0, 0⟩], [⟨"v", 3, 97, 25, 0, 0, 0⟩], [], []⟩).promptVariants
      = [] ∧
    (pruneLowPerformers
        ⟨[⟨"v", "t", none, 0, 0⟩], [⟨"v", 3, 97, 25, 0, 0, 0⟩], [], []⟩).variantPerformance
      = [⟨"v", 3, 97, 25, 0, 0, 0⟩] := by
  have hsp : shouldPrune
      ⟨[⟨"v", "t", none, 0, 0⟩], [⟨"v", 3, 97, 25, 0, 0, 0⟩], [], []⟩ "v" = true := by
    unfold shouldPrune
    rw [show lookupPerf
        (⟨[⟨"v", "t", none, 0, 0⟩], [⟨"v", 3, 97, 25, 0, 0, 0⟩], [], []⟩ :
          DB).variantPerformance "v" =
        some ⟨"v", 3, 97, 25, 0, 0, 0⟩ from rfl]
    simp only [Bool.and_eq_true, decide_eq_true_eq]
    norm_num
  constructor
  · show List.filter
      (fun v => !(shouldPrune
        ⟨[⟨"v", "t", none, 0, 0⟩], [⟨"v", 3, 97, 25, 0, 0, 0⟩], [], []⟩ v.id))
      [(⟨"v", "t", none, 0, 0⟩ : PromptVariant)] = []
    rw [List.filter_cons]
    simp only [hsp, Bool.not_true, List.filter_nil]
    rfl
  · rfl

/-- C5 amended: one pruning pass deletes from `prompt_variants` exactly
those variants whose posterior row has `total_trials ≥ 20` and
`alpha/(alpha+beta) < 0.05`; every other variant is retained; but the
`variant_performance` table (and all history tables) is left completely
unchanged, so the deleted variants' posterior rows are NOT co-destroyed. -/
theorem prune_deletes_exactly_low_performers (db : DB) (v : PromptVariant) :
    (pruneLowPerformers db).variantPerformance = db.variantPerformance ∧
    (pruneLowPerformers db).feedbackRecords = db.feedbackRecords ∧
    (pruneLowPerformers db).preferenceComparisons = db.preferenceComparisons ∧
    (v ∈ (pruneLowPerformers db).promptVariants ↔
      v ∈ db.promptVariants ∧
        ¬ ∃ p, lookupPerf db.variantPerformance v.id = some p ∧
          20 ≤ p.totalTrials ∧ p.alpha + p.beta ≠ 0 ∧
          p.alpha / (p.alpha + p.beta) < 1/20) := by
  refine ⟨rfl, rfl, rfl, ?_⟩
  show v ∈ db.promptVariants.filter (fun v => !(shouldPrune db v.id)) ↔ _
  rw [List.mem_filter]
  rw [Bool.not_eq_true']
  rw [shouldPrune_eq_false_iff]

/-- C7 counterexample: `recordPreference` on variant ids with no stored
posterior row does not materialize a boosted default-prior posterior —
afterwards the winner's posterior still reads the plain default
`alpha = 1`, not `1.1` as the claim states. -/
theorem recordPreference_unknown_no_boost_cx :
    (getPerformance
        (recordPreference ⟨[], [], [], []⟩ "w" "l" "ctx" false 0) "w").alpha = 1 ∧
    (1 : ℚ) ≠ 1 + 1/10 := by
  exact ⟨rfl, by norm_num⟩

/-- C7 amended: `recordPreference` on ids with no stored posterior row
succeeds without error and appends the comparison record, but the boost
`UPDATE` matches no row: no posterior is materialized, both ids still
have no stored row, and reading them back yields the unboosted default
prior (`alpha = 1`, `beta = 1`). -/
theorem recordPreference_unknown_stays_default
    (db : DB) (winnerId loserId context : String) (hf : Bool) (now : ℕ)
    (hw : lookupPerf db.variantPerformance winnerId = none)
    (hl : lookupPerf db.variantPerformance loserId = none) :
    lookupPerf (recordPreference db winnerId loserId context hf now).variantPerformance
      winnerId = none ∧
    lookupPerf (recordPreference db winnerId loserId context hf now).variantPerformance
      loserId = none ∧
    getPerformance (recordPreference db winnerId loserId context hf now) winnerId =
      ⟨winnerId, 1, 1, 0, 0, 0, 0⟩ ∧
    getPerformance (recordPreference db winnerId loserId context hf now) loserId =
      ⟨loserId, 1, 1, 0, 0, 0, 0⟩ ∧
    (recordPreference db winnerId loserId context hf now).preferenceComparisons =
      db.preferenceComparisons ++ [⟨winnerId, loserId, context, hf, now⟩] := by
  have hw' : lookupPerf (recordPreference db winnerId loserId context hf now).variantPerformance
      winnerId = none := by
    show lookupPerf (updateBeta (updateAlpha db.variantPerformance winnerId (1/10))
      loserId (1/10)) winnerId = none
    by_cases h : winnerId = loserId
    · subst h
      rw [lookupPerf_updateBeta_self, lookupPerf_updateAlpha_self, hw]
      rfl
    · rw [lookupPerf_updateBeta_other _ _ _ _ h,
        lookupPerf_updateAlpha_self, hw]
      rfl
  have hl' : lookupPerf (recordPreference db winnerId loserId context hf now).variantPerformance
      loserId = none := by
    show lookupPerf (updateBeta (updateAlpha db.variantPerformance winnerId (1/10))
      loserId (1/10)) loserId = none
    rw [lookupPerf_updateBeta_self]
    by_cases h : loserId = winnerId
    · subst h
      rw [lookupPerf_updateAlpha_self, hw]
      rfl
    · rw [lookupPerf_updateAlpha_other _ _ _ _ h, hl]
      rfl
  refine ⟨hw', hl', ?_, ?_, rfl⟩
  · unfold getPerformance
    rw [hw']
  · unfold getPerformance
    rw [hl']

/-- Witness for C7: on the empty store, `recordPreference "w" "l"`
leaves the winner reading back the plain default prior. -/
theorem recordPreference_unknown_stays_default_witness :
    getPerformance (recordPreference ⟨[], [], [], []⟩ "w" "l" "c" true 5) "w" =
      ⟨"w", 1, 1, 0, 0, 0, 0⟩ :=
  (recordPreference_unknown_stays_default
    ⟨[], [], [], []⟩ "w" "l" "c" true 5 rfl rfl).2.2.1

/-- C9: `recordPreference` on two distinct variants with stored posterior
rows adds exactly `0.1` to the winner's `alpha` and exactly `0.1` to the
loser's `beta`, appends exactly one preference-comparison record, and
changes nothing else: the winner's `beta`, the loser's `alpha`, both
variants' trial counts and running averages (captured by the
record-update form), every other variant's posterior, and the other two
tables. -/
theorem recordPreference_boosts_exactly
    (db : DB) (winnerId loserId context : String) (hf : Bool) (now : ℕ)
    (pw pl : VariantPerformance)
    (hw : lookupPerf db.variantPerformance winnerId = some pw)
    (hl : lookupPerf db.variantPerformance loserId = some pl)
    (hne : winnerId ≠ loserId) :
    lookupPerf (recordPreference db winnerId loserId context hf now).variantPerformance
      winnerId = some { pw with alpha := pw.alpha + 1/10 } ∧
    lookupPerf (recordPreference db winnerId loserId context hf now).variantPerformance
      loserId = some { pl with beta := pl.beta + 1/10 } ∧
    (∀ id, id ≠ winnerId → id ≠ loserId →
      lookupPerf (recordPreference db winnerId loserId context hf now).variantPerformance
        id = lookupPerf db.variantPerformance id) ∧
    (recordPreference db winnerId loserId context hf now).preferenceComparisons =
      db.preferenceComparisons ++ [⟨winnerId, loserId, context, hf, now⟩] ∧
    (recordPreference db winnerId loserId context hf now).promptVariants =
      db.promptVariants ∧
    (recordPreference db winnerId loserId context hf now).feedbackRecords =
      db.feedbackRecords := by
  refine ⟨?_, ?_, ?_, rfl, rfl, rfl⟩
  · show lookupPerf (updateBeta (updateAlpha db.variantPerformance winnerId (1/10))
      loserId (1/10)) winnerId = _
    rw [lookupPerf_updateBeta_other _ _ _ _ hne,
      lookupPerf_updateAlpha_self, hw]
    rfl
  · show lookupPerf (updateBeta (updateAlpha db.variantPerformance winnerId (1/10))
      loserId (1/10)) loserId = _
    rw [lookupPerf_updateBeta_self,
      lookupPerf_updateAlpha_other _ _ _ _ (Ne.symm hne), hl]
    rfl
  · intro id hidw hidl
    show lookupPerf (updateBeta (updateAlpha db.variantPerformance winnerId (1/10))
      loserId (1/10)) id = _
    rw [lookupPerf_updateBeta_other _ _ _ _ hidl,
      lookupPerf_updateAlpha_other _ _ _ _ hidw]

/-- Witness for C9: on a concrete store holding rows for "w" and "l",
the winner's row gains exactly `0.1` on `alpha` and nothing else. -/
theorem prefBest_ok_mem (db : DB) (a b r : Option PromptVariant)
    (h : prefBest db a b = .ok r) : r = a ∨ r = b := by
  cases a with
  | none => exact Except.noConfusion h
  | some va =>
    cases b with
    | none => exact Except.noConfusion h
    | some vb =>
      injection h with h2
      by_cases hc : (getPerformance db vb.id).avgReward <
          (getPerformance db va.id).avgReward
      · left; rw [← h2, if_pos hc]
      · right; rw [← h2, if_neg hc]

theorem foldlM_prefBest_mem (db : DB) (cs : List (Option PromptVariant)) :
    ∀ acc r, cs.foldlM (prefBest db) acc = .ok r → r = acc ∨ r ∈ cs := by
  induction cs with
  | nil =>
    intro acc r h
    left
    injection h with h2
    exact h2.symm
  | cons b bs ih =>
    intro acc r h
    rw [List.foldlM_cons] at h
    cases hpb : prefBest db acc b with
    | error e => rw [hpb] at h; exact Except.noConfusion h
    | ok m =>
      rw [hpb] at h
      have h' : bs.foldlM (prefBest db) m = .ok r := h
      rcases ih m r h' with hm | hm
      · rcases prefBest_ok_mem db acc b m hpb with he | he
        · left; rw [hm, he]
        · right; rw [hm, he]; exact List.mem_cons_self b bs
      · right; exact List.mem_cons_of_mem b hm

theorem jsReduceBest_ok_mem (db : DB) (cs : List (Option PromptVariant))
    (r : Option PromptVariant) (h : jsReduceBest db cs = .ok r) : r ∈ cs := by
  cases cs with
  | nil => exact Except.noConfusion h
  | cons c cs' =>
    rcases foldlM_prefBest_mem db cs' c r h with h1 | h1
    · rw [h1]; exact List.mem_cons_self c cs'
    · exact List.mem_cons_of_mem c h1

theorem getD_some_mem {α : Type} (l : List (Option α)) (i : ℕ) (x : α)
    (h : l.getD i none = some x) : some x ∈ l := by
  induction l generalizing i with
  | nil => exact Option.noConfusion h
  | cons a as ih =>
    cases i with
    | zero =>
      rw [List.getD_cons_zero] at h
      rw [h] at *
      exact List.mem_cons_self _ _
    | succ n =>
      rw [List.getD_cons_succ] at h
      exact List.mem_cons_of_mem a (ih n h)

theorem tournamentSelection_ok_mem (db : DB) (population : List PromptVariant) :
    ∀ k rand sel, tournamentSelection db population k rand = .ok sel →
      ∀ o ∈ sel, ∀ p, o = some p → p ∈ population := by
  intro k
  induction k with
  | zero =>
    intro rand sel h o ho p hp
    injection h with h2
    rw [← h2] at ho
    exact absurd ho (List.not_mem_nil o)
  | succ k ih =>
    intro rand sel h o ho p hp
    simp only [tournamentSelection] at h
    cases hb : jsReduceBest db (contestantsFrom population rand 0) with
    | error e => rw [hb] at h; exact Except.noConfusion h
    | ok best =>
      rw [hb] at h
      cases hrest : tournamentSelection db population k (fun n => rand (n + 3)) with
      | error e => rw [hrest] at h; exact Except.noConfusion h
      | ok rest =>
        rw [hrest] at h
        injection h with h2
        rw [← h2] at ho
        rcases List.mem_cons.mp ho with hcase | hcase
        · subst hcase
          subst hp
          have hmem := jsReduceBest_ok_mem db _ _ hb
          simp only [contestantsFrom, List.mem_cons, List.not_mem_nil,
            or_false] at hmem
          rcases hmem with hg | hg | hg <;>
            exact List.get?_mem hg.symm
        · exact ih (fun n => rand (n + 3)) rest hrest o hcase p hp

theorem evolveLoop_spec (rng : EvolveRng) (now : ℕ)
    (population : List PromptVariant) :
    ∀ k gen db ids db',
      evolveLoop rng now population k gen db = .ok (ids, db') →
      ids.length = k ∧
      (∀ x ∈ db.promptVariants, x ∈ db'.promptVariants) ∧
      (∀ id ∈ ids, ∃ v ∈ db'.promptVariants, v.id = id ∧
        ∃ p ∈ population, v.parentId = some p.id ∧
          v.generation = p.generation + 1) := by
  intro k
  induction k with
  | zero =>
    intro gen db ids db' h
    injection h with h2
    injection h2 with ha hb
    subst hb
    rw [← ha]
    exact ⟨rfl, fun x hx => hx, fun id hid => absurd hid (List.not_mem_nil id)⟩
  | succ k ih =>
    intro gen db ids db' h
    simp only [evolveLoop] at h
    cases hts : tournamentSelection db population 2 (rng.tournIdx gen) with
    | error e => rw [hts] at h; exact Except.noConfusion h
    | ok parents =>
      simp only [hts] at h
      cases hp0 : parents.getD 0 none with
      | none =>
        cases hp1 : parents.getD 1 none with
        | none => simp only [hp0, hp1] at h; exact Except.noConfusion h
        | some p1 => simp only [hp0, hp1] at h; exact Except.noConfusion h
      | some p0 =>
        cases hp1 : parents.getD 1 none with
        | none => simp only [hp0, hp1] at h; exact Except.noConfusion h
        | some p1 =>
          simp only [hp0, hp1] at h
          cases hrec : evolveLoop rng now population k (gen + 1)
              (createVariant db
                (if rng.doMutate gen then
                  mutatePrompt (crossoverPrompts p0.template p1.template)
                    (rng.mutChoice gen)
                 else crossoverPrompts p0.template p1.template)
                (some p0.id) (p0.generation + 1) (rng.freshId gen) now) with
          | error e => rw [hrec] at h; exact Except.noConfusion h
          | ok res =>
            rw [hrec] at h
            obtain ⟨rest, dbf⟩ := res
            injection h with h2
            injection h2 with ha hb
            subst hb
            rw [← ha]
            obtain ⟨hlen, hmono, hall⟩ := ih (gen + 1) _ rest dbf hrec
            have hp0mem : p0 ∈ population :=
              tournamentSelection_ok_mem db population 2 (rng.tournIdx gen)
                parents hts (some p0) (getD_some_mem parents 0 p0 hp0) p0 rfl
            refine ⟨by rw [List.length_cons, hlen], ?_, ?_⟩
            · intro x hx
              exact hmono x (List.mem_append_left _ hx)
            · intro id hid
              rcases List.mem_cons.mp hid with hcase | hcase
              · refine ⟨⟨rng.freshId gen,
                  (if rng.doMutate gen then
                    mutatePrompt (crossoverPrompts p0.template p1.template)
                      (rng.mutChoice gen)
                   else crossoverPrompts p0.template p1.template),
                  some p0.id, p0.generation + 1, now⟩, ?_, hcase.symm,
                  p0, hp0mem, rfl, rfl⟩
                refine hmono _ ?_
                exact List.mem_append_right _ (List.mem_singleton.mpr rfl)
              · exact hall id hcase

theorem tournamentSelection_empty_population (db : DB) (k : ℕ)
    (rand : ℕ → ℕ) :
    tournamentSelection db [] (k + 1) rand = .error JsError.typeError := by
  have h1 : jsReduceBest db (contestantsFrom [] rand 0) =
      .error JsError.typeError := by
    rw [show contestantsFrom [] rand 0 = [none, none, none] from by
      simp [contestantsFrom]]
    rfl
  simp only [tournamentSelection, h1]

theorem gammaRet_pos (U : Set ℝ) (hU : ∀ u ∈ U, 0 < u)
    (shape scale r : ℝ) (h : GammaRet U shape scale r) :
    0 < scale → 0 < r := by
  induction h with
  | accept s sc x h1 hv =>
    intro hsc
    have hd : 0 < s - 1/3 := by linarith
    exact mul_pos (mul_pos hd (pow_pos hv 3)) hsc
  | small s sc u r h1 hu hrec ih =>
    intro hsc
    exact mul_pos (ih hsc) (Real.rpow_pos_of_pos (hU u hu) _)

/-- C2 counterexample: `Math.random()` ranges over `[0,1)`, so a zero
uniform draw is possible; in the `shape < 1` branch `sampleGamma(1/2, 1)`
then returns `r · 0^(1/(1/2)) = 0`, and `sampleBeta(1/2, 1) = 0/(0+y) = 0`,
which is not strictly greater than 0 — the claimed open-interval
containment fails for `alpha = 1/2 > 0`, `beta = 1 > 0`. -/
theorem sampleBeta_can_return_zero_cx :
    BetaRet (Set.Ico 0 1) (1/2) 1 0 ∧ ¬ (0 < (0:ℝ) ∧ (0:ℝ) < 1) := by
  constructor
  · have hrec : GammaRet (Set.Ico 0 1) ((1/2 : ℝ) + 1) 1
        ((((1/2:ℝ) + 1) - 1/3) *
          (1 + (1 / Real.sqrt (9 * (((1/2:ℝ) + 1) - 1/3))) * 0)^3 * 1) :=
      GammaRet.accept _ _ 0 (by norm_num) (by norm_num)
    have hsmall := GammaRet.small (U := Set.Ico 0 1) (1/2) 1 0 _
      (by norm_num) (Set.mem_Ico.mpr ⟨le_rfl, one_pos⟩) hrec
    have hzero : ((((1/2:ℝ) + 1) - 1/3) *
        (1 + (1 / Real.sqrt (9 * (((1/2:ℝ) + 1) - 1/3))) * 0)^3 * 1) *
        (0:ℝ) ^ ((1:ℝ)/(1/2)) = 0 := by
      rw [Real.zero_rpow (by norm_num : ((1:ℝ)/(1/2)) ≠ 0), mul_zero]
    rw [hzero] at hsmall
    have hy : GammaRet (Set.Ico 0 1) 1 1
        (((1:ℝ) - 1/3) * (1 + (1 / Real.sqrt (9 * ((1:ℝ) - 1/3))) * 0)^3 * 1) :=
      GammaRet.accept _ _ 0 le_rfl (by norm_num)
    exact ⟨0, _, hsmall, hy, (zero_div _).symm⟩
  · intro h
    exact lt_irrefl 0 h.1

/-- C2 amended: for all `alpha > 0` and `beta > 0`, and for every draw
sequence whose uniform draws are all strictly positive (i.e. in `(0,1)`
rather than the full `Math.random()` range `[0,1)`), every value
`sampleBeta(alpha, beta)` can return lies strictly between 0 and 1. -/
theorem sampleBeta_mem_open_unit_interval (alpha beta r : ℝ)
    (ha : 0 < alpha) (hb : 0 < beta)
    (h : BetaRet (Set.Ioo 0 1) alpha beta r) : 0 < r ∧ r < 1 := by
  obtain ⟨x, y, hx, hy, hr⟩ := h
  have hx0 : 0 < x :=
    gammaRet_pos _ (fun u hu => hu.1) _ _ _ hx one_pos
  have hy0 : 0 < y :=
    gammaRet_pos _ (fun u hu => hu.1) _ _ _ hy one_pos
  subst hr
  constructor
  · exact div_pos hx0 (by linarith)
  · rw [div_lt_one (by linarith)]
    linarith

/-- Witness for C2: the accept-branch value of `sampleGamma(1, 1)` at
normal draw `x = 0` for both gamma draws puts the Beta sample strictly
inside `(0, 1)`. -/
theorem sampleBeta_mem_open_unit_interval_witness :
    0 < (((1:ℝ) - 1/3) * (1 + (1 / Real.sqrt (9 * ((1:ℝ) - 1/3))) * 0)^3 * 1) /
        ((((1:ℝ) - 1/3) * (1 + (1 / Real.sqrt (9 * ((1:ℝ) - 1/3))) * 0)^3 * 1) +
         (((1:ℝ) - 1/3) * (1 + (1 / Real.sqrt (9 * ((1:ℝ) - 1/3))) * 0)^3 * 1)) ∧
    (((1:ℝ) - 1/3) * (1 + (1 / Real.sqrt (9 * ((1:ℝ) - 1/3))) * 0)^3 * 1) /
        ((((1:ℝ) - 1/3) * (1 + (1 / Real.sqrt (9 * ((1:ℝ) - 1/3))) * 0)^3 * 1) +
         (((1:ℝ) - 1/3) * (1 + (1 / Real.sqrt (9 * ((1:ℝ) - 1/3))) * 0)^3 * 1)) < 1 :=
  sampleBeta_mem_open_unit_interval 1 1 _ one_pos one_pos
    ⟨_, _, GammaRet.accept _ _ 0 le_rfl (by norm_num),
      GammaRet.accept _ _ 0 le_rfl (by norm_num), rfl⟩

/-- C6: when `evolvePrompts(populationSize, nGenerations)` completes on a
non-empty breeding pool, the returned list holds exactly one new variant
id per generation iteration, and every newly registered variant's stored
row has its parent reference equal to the first tournament-selected
parent — a member of the initial pool `getTopVariants db populationSize`
(top performers with at least 10 trials ranked by descending average
reward) — and its generation equal to that parent's generation plus 1. -/
theorem evolvePrompts_offspring_lineage (db : DB)
    (populationSize nGenerations : ℕ) (rng : EvolveRng) (now : ℕ)
    (ids : List String) (db' : DB)
    (hpool : getTopVariants db populationSize ≠ [])
    (h : evolvePrompts db populationSize nGenerations rng now =
      .ok (ids, db')) :
    ids.length = nGenerations ∧
    ∀ id ∈ ids, ∃ v ∈ db'.promptVariants, v.id = id ∧
      ∃ p ∈ getTopVariants db populationSize,
        v.parentId = some p.id ∧ v.generation = p.generation + 1 := by
  obtain ⟨h1, _, h3⟩ := evolveLoop_spec rng now
    (getTopVariants db populationSize) nGenerations 0 db ids db' h
  exact ⟨h1, h3⟩

/-- Witness for C6: one generation over the one-variant pool "a"
produces exactly the variant "n0" with parent "a" and generation 1. -/
theorem evolvePrompts_offspring_lineage_witness :
    (["n0"] : List String).length = 1 ∧
    ∀ id ∈ ["n0"], ∃ v ∈ (createVariant evolveWitnessDB
        (crossoverPrompts "T" "T") (some "a") 1 "n0" 0).promptVariants,
      v.id = id ∧ ∃ p ∈ getTopVariants evolveWitnessDB 5,
        v.parentId = some p.id ∧ v.generation = p.generation + 1 :=
  evolvePrompts_offspring_lineage evolveWitnessDB 5 1 evolveWitnessRng 0
    ["n0"] (createVariant evolveWitnessDB
      (crossoverPrompts "T" "T") (some "a") 1 "n0" 0)
    (by decide) rfl

/-- C10: when no variant meets the minimum-trials threshold the breeding
pool `getTopVariants` retrieves is empty, and `evolvePrompts` with at
least one generation does not return an empty offspring list but fails:
tournament selection indexes into the empty population, producing
`undefined` contestants whose fields the reduce callback then
dereferences (a `TypeError`).  `continuousLearningLoop`'s maintenance
cycle calls `evolvePrompts(5, 2)`, so on such a store every cycle fails
at the evolve step instead of completing as a no-op. -/
theorem evolvePrompts_empty_pool_throws (db : DB)
    (populationSize nGenerations : ℕ) (rng : EvolveRng) (now : ℕ)
    (hpool : getTopVariants db populationSize = [])
    (hng : 1 ≤ nGenerations) :
    evolvePrompts db populationSize nGenerations rng now =
      .error JsError.typeError := by
  obtain ⟨k, rfl⟩ : ∃ k, nGenerations = k + 1 :=
    ⟨nGenerations - 1, by omega⟩
  unfold evolvePrompts
  rw [hpool]
  simp only [evolveLoop, tournamentSelection_empty_population]

/-- Witness for C10: on the empty store (pool empty), one requested
generation makes `evolvePrompts` fail with the `TypeError`. -/
theorem evolvePrompts_empty_pool_throws_witness :
    evolvePrompts ⟨[], [], [], []⟩ 5 1 evolveWitnessRng 0 =
      Except.error JsError.typeError :=
  evolvePrompts_empty_pool_throws ⟨[], [], [], []⟩ 5 1 evolveWitnessRng 0
    rfl le_rfl

theorem recordPreference_boosts_exactly_witness :
    lookupPerf (recordPreference
        ⟨[], [⟨"w", 2, 3, 5, 0, 0, 0⟩, ⟨"l", 4, 5, 6, 0, 0, 0⟩], [], []⟩
        "w" "l" "ctx" false 7).variantPerformance "w" =
      some ⟨"w", 2 + 1/10, 3, 5, 0, 0, 0⟩ :=
  (recordPreference_boosts_exactly
    ⟨[], [⟨"w", 2, 3, 5, 0, 0, 0⟩, ⟨"l", 4, 5, 6, 0, 0, 0⟩], [], []⟩
    "w" "l" "ctx" false 7 ⟨"w", 2, 3, 5, 0, 0, 0⟩ ⟨"l", 4, 5, 6, 0, 0, 0⟩
    (by decide) (by decide) (by decide)).1

end ABLearning
